import Mathlib

/-!
Verification development for the semantic-model tooling of this repository:
the splitter (`scripts/split_semantic_model.py`), the merger
(`scripts/merge_semantic_models.py`) and the manager / validator
(`scripts/manage_semantic_model.py`).

The Python scripts operate on parsed YAML values (the result of
`yaml.safe_load`).  We embed those values as the inductive type `Yaml`
below, and embed the Python dictionary operations (`in`, `.get`,
subscript, `len`, truthiness) with their dynamic-typing behaviour:
operations that raise in Python return `Except PyErr` here.

Top-level semantic-model documents are association lists
(`Dict := List (String × Yaml)`); Python dictionaries preserve insertion
order and have unique keys, which association lists model faithfully
(all documents built by the scripts have unique keys).
-/

/-- Embedded YAML value, as produced by `yaml.safe_load`. -/
inductive Yaml where
  | null : Yaml
  | b : Bool → Yaml
  | i : Int → Yaml
  | s : String → Yaml
  | list : List Yaml → Yaml
  | map : List (String × Yaml) → Yaml
  deriving Repr

/-- A parsed YAML mapping with string keys (a Python `dict`). -/
abbrev Dict := List (String × Yaml)

mutual

/-- Structural equality of YAML values (Python `==` on parsed YAML). -/
def yamlBeq : Yaml → Yaml → Bool
  | .null, .null => true
  | .b x, .b y => x == y
  | .i x, .i y => x == y
  | .s x, .s y => x == y
  | .list xs, .list ys => yamlBeqList xs ys
  | .map xs, .map ys => yamlBeqKvs xs ys
  | _, _ => false

/-- Elementwise equality of YAML sequences. -/
def yamlBeqList : List Yaml → List Yaml → Bool
  | [], [] => true
  | x :: xs, y :: ys => yamlBeq x y && yamlBeqList xs ys
  | _, _ => false

/-- Pairwise equality of YAML mappings (insertion order included,
matching the association-list representation). -/
def yamlBeqKvs : List (String × Yaml) → List (String × Yaml) → Bool
  | [], [] => true
  | (k1, v1) :: xs, (k2, v2) :: ys => k1 == k2 && yamlBeq v1 v2 && yamlBeqKvs xs ys
  | _, _ => false

end

/-- Python exceptions that the embedded code can raise. -/
inductive PyErr where
  | typeError
  | attributeError
  | keyError
  | valueError (msg : String)
  | sysExit (code : Nat)
  deriving Repr, DecidableEq

/-- First binding of key `k` in an association list (Python `dict` lookup). -/
def lookupKey (kvs : Dict) (k : String) : Option Yaml :=
  (kvs.find? (fun p => p.1 == k)).map (·.2)

/-- Python `d.get(k, default)` on a mapping. -/
def getD (kvs : Dict) (k : String) (d : Yaml) : Yaml :=
  (lookupKey kvs k).getD d

/-- Python `k in d` on a mapping. -/
def hasKey (kvs : Dict) (k : String) : Bool :=
  (lookupKey kvs k).isSome

/-- Python `d[k] = v`: replace the binding if the key is present
(keeping its position), append it otherwise. -/
def setKey (kvs : Dict) (k : String) (v : Yaml) : Dict :=
  if hasKey kvs k then kvs.map (fun p => if p.1 == k then (p.1, v) else p)
  else kvs ++ [(k, v)]

/-- Python truthiness of a value. -/
def pyTruthy : Yaml → Bool
  | .null => false
  | .b bb => bb
  | .i n => n != 0
  | .s t => t != ""
  | .list xs => !xs.isEmpty
  | .map kvs => !kvs.isEmpty

/-- Does the needle occur at the head of the haystack? -/
def startsWithChars : List Char → List Char → Bool
  | [], _ => true
  | _ :: _, [] => false
  | n :: ns, h :: hs => n == h && startsWithChars ns hs

/-- Does the needle occur anywhere in the haystack? -/
def containsSubChars (needle : List Char) : List Char → Bool
  | [] => needle.isEmpty
  | h :: hs => startsWithChars needle (h :: hs) || containsSubChars needle hs

/-- Substring test, used for Python `needle in haystack` on strings. -/
def strContains (hay needle : String) : Bool :=
  containsSubChars needle.toList hay.toList

/-- Python `key in value` for an arbitrary value: key membership on
dicts, element membership on lists, substring test on strings, and a
`TypeError` on values that do not support the membership test
(`None`, booleans, numbers). -/
def pyIn (key : String) : Yaml → Except PyErr Bool
  | .map kvs => .ok (hasKey kvs key)
  | .list xs => .ok (xs.any (fun y => yamlBeq y (Yaml.s key)))
  | .s t => .ok (strContains t key)
  | _ => .error PyErr.typeError

/-- Python `value.get(key, default)`: only dicts have `.get`; any other
value raises `AttributeError`. -/
def pyGetD (y : Yaml) (k : String) (d : Yaml) : Except PyErr Yaml :=
  match y with
  | .map kvs => .ok (getD kvs k d)
  | _ => .error PyErr.attributeError

/-- Python `value[key]` with a string key: `KeyError` if the key is
absent from a dict, `TypeError` on non-dict values. -/
def pySubscript (y : Yaml) (k : String) : Except PyErr Yaml :=
  match y with
  | .map kvs =>
    match lookupKey kvs k with
    | some v => .ok v
    | none => .error PyErr.keyError
  | _ => .error PyErr.typeError

/-- Python `len(value)`: defined for strings, lists and dicts,
`TypeError` otherwise. -/
def pyLen : Yaml → Except PyErr Nat
  | .s t => .ok t.length
  | .list xs => .ok xs.length
  | .map kvs => .ok kvs.length
  | _ => .error PyErr.typeError

/-- Python `value[:50]`: slicing is defined for sequences (strings and
lists); `None`, booleans, numbers and dicts raise `TypeError`. -/
def pySlice50 : Yaml → Except PyErr Yaml
  | .s t => .ok (.s (t.take 50))
  | .list xs => .ok (.list (xs.take 50))
  | _ => .error PyErr.typeError

example : lookupKey [("name", Yaml.s "M"), ("tables", Yaml.list [])] "tables" = some (Yaml.list []) := rfl
example : pyIn "tables" (Yaml.null) = .error PyErr.typeError := rfl
example : setKey [("a", Yaml.null)] "a" (Yaml.s "x") = [("a", Yaml.s "x")] := rfl

/-!
## Splitter (`scripts/split_semantic_model.py`, class `SemanticModelSplitter`)

`extract_schema`, `extract_instructions` and `extract_verified_queries`
build new dictionaries with `model.get(...)`; the call sites pass the
parsed top-level document.  The methods require a `dict` (a non-dict
would raise `AttributeError` on `.get`), so they are embedded over
`Dict` directly.
-/

/-- `extract_schema` (split_semantic_model.py lines 70-79). -/
def extract_schema (model : Dict) : Dict :=
  [("name", getD model "name" Yaml.null),
   ("description", getD model "description" (Yaml.s "")),
   ("tables", getD model "tables" (Yaml.list []))]

/-- `extract_instructions` (split_semantic_model.py lines 81-89). -/
def extract_instructions (model : Dict) : Dict :=
  [("instructions", getD model "instructions" (Yaml.list []))]

/-- `extract_verified_queries` (split_semantic_model.py lines 91-99). -/
def extract_verified_queries (model : Dict) : Dict :=
  [("verified_queries", getD model "verified_queries" (Yaml.list []))]

/-- Python whitespace characters recognised by `str.strip` / `str.rstrip`
(ASCII whitespace plus the Unicode whitespace used by `str.isspace`;
the repertoire relevant to the claims is ASCII). -/
def pyIsSpace (c : Char) : Bool :=
  c == ' ' || c == '\t' || c == '\n' || c == '\r' || c == '\x0b' || c == '\x0c' ||
  c == Char.ofNat 0x1c || c == Char.ofNat 0x1d || c == Char.ofNat 0x1e || c == Char.ofNat 0x1f ||
  c == Char.ofNat 0x85 || c == Char.ofNat 0xa0 || c == Char.ofNat 0x2028 || c == Char.ofNat 0x2029

/-- Python `sql.replace(<backslash-n>, <newline>)`: rewrite every
occurrence of the two-character escape sequence backslash-`n` into a
real newline, left to right. -/
def replaceEscapedNewlines : List Char → List Char
  | [] => []
  | '\\' :: 'n' :: rest => '\n' :: replaceEscapedNewlines rest
  | c :: rest => c :: replaceEscapedNewlines rest

/-- Line-boundary characters of Python `str.splitlines`. -/
def isLineBreak (c : Char) : Bool :=
  c == '\n' || c == '\r' || c == '\x0b' || c == '\x0c' ||
  c == Char.ofNat 0x1c || c == Char.ofNat 0x1d || c == Char.ofNat 0x1e ||
  c == Char.ofNat 0x85 || c == Char.ofNat 0x2028 || c == Char.ofNat 0x2029

/-- Worker for `pySplitlines`: `acc` holds the current line, reversed. -/
def pySplitlinesAux : List Char → List Char → List (List Char)
  | acc, [] => if acc.isEmpty then [] else [acc.reverse]
  | acc, '\r' :: '\n' :: rest => acc.reverse :: pySplitlinesAux [] rest
  | acc, c :: rest =>
    if isLineBreak c then acc.reverse :: pySplitlinesAux [] rest
    else pySplitlinesAux (c :: acc) rest

/-- Python `str.splitlines`: split at line boundaries, `\r\n` counting
as one boundary, with no trailing empty line for a final boundary. -/
def pySplitlines (s : List Char) : List (List Char) :=
  pySplitlinesAux [] s

/-- Python `str.rstrip()`: drop trailing whitespace. -/
def pyRstripChars (l : List Char) : List Char :=
  (l.reverse.dropWhile pyIsSpace).reverse

/-- Python `str.strip()`: drop leading and trailing whitespace. -/
def pyStripChars (l : List Char) : List Char :=
  (pyRstripChars l).dropWhile pyIsSpace

/-- The SQL normalisation applied by `format_sql_as_literal`
(split_semantic_model.py lines 112-115): replace escaped newlines,
strip trailing whitespace per line, join, strip the whole text and
append exactly one newline. -/
def sqlClean (s : String) : String :=
  let t := replaceEscapedNewlines s.toList
  let ls := (pySplitlines t).map pyRstripChars
  let joined := List.intercalate ['\n'] ls
  ((pyStripChars joined) ++ ['\n']).asString

/-- One iteration of the `for query in queries` loop of
`format_sql_as_literal` (lines 110-121): a query whose `sql` key holds
a string gets the normalised SQL (the `LiteralScalarString` /
`LiteralStr` wrappers only affect YAML rendering, not the value); a
non-dict query raises on `query[<sql>]` when the membership test says
the key is there, exactly as in Python. -/
def formatQuery (q : Yaml) : Except PyErr Yaml := do
  let hs ← pyIn "sql" q
  if hs then
    match q with
    | .map kvs =>
      match lookupKey kvs "sql" with
      | some (.s sqlText) =>
        pure (.map (kvs.map (fun p => if p.1 == "sql" then (p.1, Yaml.s (sqlClean sqlText)) else p)))
      | _ => pure q
    | _ => .error PyErr.typeError
  else
    pure q

/-- `format_sql_as_literal` (split_semantic_model.py lines 101-123). -/
def format_sql_as_literal (data : Dict) : Except PyErr Dict := do
  if !hasKey data "verified_queries" then
    pure data
  else
    match getD data "verified_queries" (Yaml.list []) with
    | .list qs => do
      let qs' ← qs.mapM formatQuery
      pure (setKey data "verified_queries" (Yaml.list qs'))
    | _ => pure data

/-- The three documents produced by a `split` run, in save order
(`split` lines 279-289; `save_yaml` applies `format_sql_as_literal`
only to `verified_queries.yaml`). -/
def splitDocs (model : Dict) : Except PyErr (Dict × Dict × Dict) := do
  let schema := extract_schema model
  let instrs := extract_instructions model
  let vq ← format_sql_as_literal (extract_verified_queries model)
  pure (schema, instrs, vq)

example :
    sqlClean "SELECT 1\\nFROM X" = "SELECT 1\nFROM X\n" := rfl
example :
    sqlClean "SELECT 1  \nFROM X  " = "SELECT 1\nFROM X\n" := rfl

/-- Observable filesystem effects of a `split` run. -/
inductive SplitEv where
  | backupInput
  | writeFile (filename : String) (content : Dict)
  | writeReadme
  deriving Repr

/-- The effect trace of `SemanticModelSplitter.split`
(split_semantic_model.py lines 254-314): the backup copy of the input
is made first and only when no file exists at the backup path
(lines 267-272), then the three component files are saved in order and
finally the README.  If `format_sql_as_literal` raises, the first two
files have already been written and the run aborts with the error. -/
def splitRun (model : Dict) (backupExists : Bool) : List SplitEv × Option PyErr :=
  let pre := if backupExists then [] else [SplitEv.backupInput]
  let w1 := [SplitEv.writeFile "schema.yaml" (extract_schema model),
             SplitEv.writeFile "instructions.yaml" (extract_instructions model)]
  match format_sql_as_literal (extract_verified_queries model) with
  | .ok vq => (pre ++ w1 ++ [SplitEv.writeFile "verified_queries.yaml" vq, SplitEv.writeReadme], none)
  | .error e => (pre ++ w1, some e)

/-!
## Merger (`scripts/merge_semantic_models.py`, class `SemanticModelMerger`)

The merge inputs are the parsed metadata, instructions and
verified-queries documents plus the per-table documents loaded from
`schema/*.yaml` in filename order.  `load_yaml` can return any parsed
value (or `{}` for a missing file), so those inputs are arbitrary
`Yaml`; the filename-dependent parts (merge timestamp, source file
list) enter as parameters.
-/

/-- `load_table_files` keeps only truthy parsed table documents
(merge_semantic_models.py lines 80-83: `if table_data: tables.append`). -/
def load_table_filter (tableDocs : List Yaml) : List Yaml :=
  tableDocs.filter pyTruthy

/-- `validate_schema` (merge_semantic_models.py lines 87-98): fails on
an empty table list; the list-type check always passes because the
caller builds a Python list. -/
def validate_schema (tables : List Yaml) : Bool :=
  !tables.isEmpty

/-- The informational `metadata` block appended by `merge`
(lines 148-158). -/
def metaBlock (now : String) (tableNames : List String) : Yaml :=
  Yaml.map
    [("merged_at", Yaml.s now),
     ("merged_from", Yaml.map
       [("schema_metadata", Yaml.s "_metadata.yaml"),
        ("schema_tables", Yaml.list (tableNames.map Yaml.s)),
        ("instructions", Yaml.s "instructions.yaml"),
        ("verified_queries", Yaml.s "verified_queries.yaml")]),
     ("version", Yaml.s "2.0")]

/-- The `instructions` contribution to the merged document
(lines 137-140): added only when the instructions document is truthy
and has the key; the diagnostic `len(...)` on line 139 raises for an
unsized value, which aborts the merge. -/
def instrPart (instructions : Yaml) : Except PyErr Dict := do
  if pyTruthy instructions then
    let c ← pyIn "instructions" instructions
    if c then
      let v ← pySubscript instructions "instructions"
      let _ ← pyLen v
      pure [("instructions", v)]
    else pure []
  else pure []

/-- The `verified_queries` contribution (lines 143-146); the count on
line 145 is guarded by `isinstance(..., list)` and cannot raise. -/
def vqPart (verified_queries : Yaml) : Except PyErr Dict := do
  if pyTruthy verified_queries then
    let c ← pyIn "verified_queries" verified_queries
    if c then
      let v ← pySubscript verified_queries "verified_queries"
      pure [("verified_queries", v)]
    else pure []
  else pure []

/-- `merge` up to the construction of the merged document
(merge_semantic_models.py lines 100-158): filter the table documents,
validate (raising `ValueError` on failure, before anything is
written), then assemble name, description, tables, the optional
instruction and query sections, and the metadata block. -/
def mergeBuild (metadata instructions verified_queries : Yaml) (tableDocs : List Yaml)
    (now : String) (tableNames : List String) : Except PyErr Dict :=
  if !validate_schema (load_table_filter tableDocs) then
    .error (PyErr.valueError "Schema validation failed")
  else do
    let nameV ← pyGetD metadata "name" (Yaml.s "Unknown Model")
    let descV ← pyGetD metadata "description" (Yaml.s "")
    let ip ← instrPart instructions
    let vp ← vqPart verified_queries
    pure ([("name", nameV), ("description", descV),
           ("tables", Yaml.list (load_table_filter tableDocs))]
          ++ ip ++ vp ++ [("metadata", metaBlock now tableNames)])

/-- A whole `merge` run: the result paired with the list of documents
written to the output file.  The output is written (lines 163-172)
only after `mergeBuild` succeeds; the statistics printed afterwards
(lines 183-185) call `len` on the `instructions` and
`verified_queries` values and can still raise, after the write. -/
def mergeRun (metadata instructions verified_queries : Yaml) (tableDocs : List Yaml)
    (now : String) (tableNames : List String) : Except PyErr Dict × List Dict :=
  match mergeBuild metadata instructions verified_queries tableDocs now tableNames with
  | .error e => (.error e, [])
  | .ok merged =>
    match pyLen (getD merged "instructions" (Yaml.list [])) with
    | .error e => (.error e, [merged])
    | .ok _ =>
      match pyLen (getD merged "verified_queries" (Yaml.list [])) with
      | .error e => (.error e, [merged])
      | .ok _ => (.ok merged, [merged])

/-!
## Validator (`scripts/manage_semantic_model.py`, `SemanticModelManager.validate`)

`validate` runs on whatever `yaml.safe_load` produced.  The membership
tests `field not in self.model_data` follow Python dynamic typing: key
lookup on a dict, element membership on a list, substring test on a
string, and a `TypeError` on `None`, booleans or numbers (so an empty
document, which parses to `None`, makes `validate` raise).  When
`tables` is "in" a list or string document, the subsequent
`self.model_data.get(...)` raises `AttributeError`.
-/

/-- A single-quote character, for building the exact Python error
strings. -/
def squote : String := (Char.ofNat 39).toString

/-- Error text of the required-top-level-field check
(manage_semantic_model.py line 119). -/
def missingFieldMsg (f : String) : String := "Missing required field: " ++ f

/-- Error text of the `tables`-must-be-a-list check (line 125). -/
def tablesNotAListMsg : String := squote ++ "tables" ++ squote ++ " must be a list"

mutual

/-- Rendering of a value inside a Python f-string (`str(value)`); the
validator interpolates `table.get(<name>, <unknown>)` this way.  The
repr of nested containers is simplified (quoting and escape details of
`repr` are not modelled; the claims only interpolate plain strings). -/
def pyStr : Yaml → String
  | .null => "None"
  | .b true => "True"
  | .b false => "False"
  | .i n => toString n
  | .s t => t
  | .list xs => "[" ++ pyStrList xs ++ "]"
  | .map kvs => "\x7b" ++ pyStrKvs kvs ++ "\x7d"

def pyStrList : List Yaml → String
  | [] => ""
  | [x] => pyStr x
  | x :: rest => pyStr x ++ ", " ++ pyStrList rest

def pyStrKvs : List (String × Yaml) → String
  | [] => ""
  | [(k, v)] => squote ++ k ++ squote ++ ": " ++ pyStr v
  | (k, v) :: rest => squote ++ k ++ squote ++ ": " ++ pyStr v ++ ", " ++ pyStrKvs rest

end

/-- Errors produced for one element of the `tables` sequence at index
`i` (manage_semantic_model.py lines 127-136): a non-dict element gets
only the dictionary error (the loop `continue`s), a dict accumulates a
missing-`name` and a missing-`base_table` error independently. -/
def tableErrors1 (i : Nat) : Yaml → List String
  | .map tkvs =>
    (if hasKey tkvs "name" then [] else [s!"Table {i} missing " ++ squote ++ "name" ++ squote ++ " field"]) ++
    (if hasKey tkvs "base_table" then [] else
      [s!"Table {i} (" ++ pyStr (getD tkvs "name" (Yaml.s "unknown")) ++ ") missing " ++ squote ++ "base_table" ++ squote ++ " field"])
  | _ => [s!"Table {i} must be a dictionary"]

/-- The `for i, table in enumerate(tables)` loop, starting at index `i`. -/
def tableErrorsFrom (i : Nat) : List Yaml → List String
  | [] => []
  | t :: ts => tableErrors1 i t ++ tableErrorsFrom (i + 1) ts

/-- `SemanticModelManager.validate` (manage_semantic_model.py
lines 106-147).  The reload of a falsy document (line 110-111)
re-parses the same file and has no observable effect on the result.
Returns the pass/fail flag and the accumulated error list, or the
Python exception the method raises. -/
def validateY (model : Yaml) : Except PyErr (Bool × List String) := do
  let n1 ← pyIn "name" model
  let e1 := if n1 then [] else [missingFieldMsg "name"]
  let n2 ← pyIn "description" model
  let e2 := if n2 then [] else [missingFieldMsg "description"]
  let n3 ← pyIn "tables" model
  let e3 := if n3 then [] else [missingFieldMsg "tables"]
  let tErrs ←
    if n3 then do
      let tables ← pyGetD model "tables" (Yaml.list [])
      match tables with
      | Yaml.list ts => pure (tableErrorsFrom 0 ts)
      | _ => pure [tablesNotAListMsg]
    else
      pure ([] : List String)
  let errors := e1 ++ e2 ++ e3 ++ tErrs
  pure (errors.isEmpty, errors)

/-- The required-top-level-fields phase of `validate` on a mapping
document (lines 116-119), as a pure function. -/
def requiredErrors (kvs : Dict) : List String :=
  (if hasKey kvs "name" then [] else [missingFieldMsg "name"]) ++
  (if hasKey kvs "description" then [] else [missingFieldMsg "description"]) ++
  (if hasKey kvs "tables" then [] else [missingFieldMsg "tables"])

/-- The tables phase of `validate` on a mapping document
(lines 122-136), as a pure function. -/
def tablesPhase (kvs : Dict) : List String :=
  if hasKey kvs "tables" then
    match getD kvs "tables" (Yaml.list []) with
    | Yaml.list ts => tableErrorsFrom 0 ts
    | _ => [tablesNotAListMsg]
  else []

/-!
## Manager commands (`scripts/manage_semantic_model.py`)

The mutating commands run `load → mutate in memory → save`.  `save`
(lines 73-91) first calls `_create_backup` (lines 93-104), which
copies the current on-disk file to a timestamped path under the backup
directory and turns any failure into a printed warning, then
overwrites the document file.  We record these filesystem effects as
an event trace; `backupOk` stands for whether the copy succeeds.
-/

/-- Filesystem effects of `SemanticModelManager.save`. -/
inductive Ev where
  | mkBackup (content : Dict)
  | warnBackupFailed
  | writeModel (content : Dict)
  deriving Repr

/-- `save` with `backup=True` (its default, used by every mutating
command): back up the pre-mutation on-disk document `orig` (or warn if
the copy fails), then write the mutated document `newData`. -/
def saveEvents (orig newData : Dict) (backupOk : Bool) : List Ev :=
  (if backupOk then [Ev.mkBackup orig] else [Ev.warnBackupFailed]) ++ [Ev.writeModel newData]

/-- `update_description` (manage_semantic_model.py lines 149-161):
read the old description, set the new one (in memory only), print the
diff — where `old_description[:50]` on line 158 raises `TypeError` for
a non-sliceable description value, aborting before `save` with no
filesystem effect — and then save.  The slice of `new_description`
never raises: it is the command-line string argument. -/
def updateDescriptionRun (disk : Dict) (newDesc : String) (backupOk : Bool) :
    Except PyErr (List Ev) := do
  let _ ← pySlice50 (getD disk "description" (Yaml.s ""))
  pure (saveEvents disk (setKey disk "description" (Yaml.s newDesc)) backupOk)

/-- The `for t in tables: if t.get(<name>) == name` scan of `add_table`
(lines 171-174).  `t.get` on a non-dict element raises
`AttributeError`. -/
def findExisting (name : String) : List Yaml → Except PyErr Bool
  | [] => .ok false
  | t :: rest =>
    match t with
    | Yaml.map tk =>
      if yamlBeq (getD tk "name" Yaml.null) (Yaml.s name) then .ok true
      else findExisting name rest
    | _ => .error PyErr.attributeError

/-- The fresh table entry built by `add_table` (lines 177-188);
an empty `--description` defaults to `Table <name>`. -/
def newTableDict (name database schema table description : String) : Dict :=
  [("name", Yaml.s name),
   ("description", Yaml.s (if description == "" then "Table " ++ name else description)),
   ("base_table", Yaml.map
     [("database", Yaml.s database), ("schema", Yaml.s schema), ("table", Yaml.s table)]),
   ("dimensions", Yaml.list []),
   ("time_dimensions", Yaml.list []),
   ("measures", Yaml.list [])]

/-- `add_table` (manage_semantic_model.py lines 163-196): abort with
`sys.exit(1)` when a table of that name exists (before any mutation or
save); otherwise append the new entry and save.  A non-list `tables`
value fails while iterating or at `.append` (`AttributeError` for
strings and dicts, whose iteration yields unsubscriptable items, and
`TypeError` for non-iterables). -/
def addTableRun (disk : Dict) (name database schema table description : String)
    (backupOk : Bool) : Except PyErr (List Ev) :=
  match getD disk "tables" (Yaml.list []) with
  | Yaml.list ts => do
    let ex ← findExisting name ts
    if ex then
      .error (PyErr.sysExit 1)
    else
      let tables' := ts ++ [Yaml.map (newTableDict name database schema table description)]
      pure (saveEvents disk (setKey disk "tables" (Yaml.list tables')) backupOk)
  | Yaml.s _ => .error PyErr.attributeError
  | Yaml.map _ => .error PyErr.attributeError
  | _ => .error PyErr.typeError

/-- The process-level outcome of the `add-table` command: `main`
(lines 536-538) catches any exception with `sys.exit(1)`, and
`SystemExit` carries its own code, so every failure exits 1 with no
file written; success performs the save events and exits 0. -/
def addTableExit (r : Except PyErr (List Ev)) : Nat × List Ev :=
  match r with
  | .ok evs => (0, evs)
  | .error (PyErr.sysExit n) => (n, [])
  | .error _ => (1, [])

/-- `get_table` plus the in-place mutation of
`update_table_description` (lines 198-220): find the first table whose
`name` equals `table_name` and set its description; `none` when no
table matches. -/
def setFirstTableDesc (tname desc : String) : List Yaml → Except PyErr (Option (List Yaml))
  | [] => .ok none
  | t :: rest =>
    match t with
    | Yaml.map tk =>
      if yamlBeq (getD tk "name" Yaml.null) (Yaml.s tname) then
        .ok (some (Yaml.map (setKey tk "description" (Yaml.s desc)) :: rest))
      else do
        match ← setFirstTableDesc tname desc rest with
        | some rest' => .ok (some (Yaml.map tk :: rest'))
        | none => .ok none
    | _ => .error PyErr.attributeError

/-- `update_table_description` (lines 208-220): `sys.exit(1)` when the
table is not found, otherwise mutate the (aliased) table entry and
save. -/
def updateTableDescRun (disk : Dict) (tname desc : String) (backupOk : Bool) :
    Except PyErr (List Ev) :=
  match getD disk "tables" (Yaml.list []) with
  | Yaml.list ts => do
    match ← setFirstTableDesc tname desc ts with
    | none => .error (PyErr.sysExit 1)
    | some ts' => pure (saveEvents disk (setKey disk "tables" (Yaml.list ts')) backupOk)
  | Yaml.s _ => .error PyErr.attributeError
  | Yaml.map _ => .error PyErr.attributeError
  | _ => .error PyErr.typeError

/-!
## `ci-deploy` (manage_semantic_model.py lines 511-531)

The workflow runs `manager.validate()`, `deployer.deploy(...)` and
`deployer.verify()` in that order, exiting 1 at the first step that
returns false and 0 when all pass.  The deploy and verify outcomes are
Snowflake network interactions (the out-of-scope stage deployer) and
enter as boolean parameters.
-/

/-- The steps of the ci-deploy workflow, for observing how far it got. -/
inductive CiStep where
  | validateStep
  | deployStep
  | verifyStep
  deriving Repr, DecidableEq

/-- `ci-deploy`: the steps attempted, and the process exit code. -/
def ciDeployRun (model : Yaml) (deployOk verifyOk : Bool) :
    Except PyErr (List CiStep × Nat) := do
  let (ok, _) ← validateY model
  if !ok then
    pure ([CiStep.validateStep], 1)
  else if !deployOk then
    pure ([CiStep.validateStep, CiStep.deployStep], 1)
  else if !verifyOk then
    pure ([CiStep.validateStep, CiStep.deployStep, CiStep.verifyStep], 1)
  else
    pure ([CiStep.validateStep, CiStep.deployStep, CiStep.verifyStep], 0)

/-!
## Spec-side SQL normalisation (refinement comparison for claim C8)

Two renderings of the specification sentence about SQL normalisation,
written from the spec words, to be compared with the code-side
`sqlClean`: `specSqlNormClaim` is the claim as stated (replace escaped
newlines, strip trailing whitespace per line, end with exactly one
trailing newline) and `specSqlNormAmended` additionally strips the
leading and trailing whitespace of the whole text, which is what the
code's `.strip()` does.
-/

/-- Spec words, as claimed: "ending the result with exactly one
trailing newline" — drop any trailing newlines, then append one. -/
def specSqlNormClaim (s : String) : String :=
  let t := replaceEscapedNewlines s.toList
  let ls := (pySplitlines t).map pyRstripChars
  let joined := List.intercalate ['\n'] ls
  ((joined.reverse.dropWhile (fun c => c == '\n')).reverse ++ ['\n']).asString

/-- Spec words as amended: also strip leading and trailing whitespace
of the whole joined text before appending the single newline. -/
def specSqlNormAmended (s : String) : String :=
  let t := replaceEscapedNewlines s.toList
  let ls := (pySplitlines t).map pyRstripChars
  let joined := List.intercalate ['\n'] ls
  ((pyStripChars joined) ++ ['\n']).asString

/-!
## Concrete example documents
-/

/-- The spec scenario table `T1` with its `base_table`. -/
def exT1 : Yaml :=
  Yaml.map
    [("name", Yaml.s "T1"),
     ("base_table", Yaml.map
       [("database", Yaml.s "D"), ("schema", Yaml.s "S"), ("table", Yaml.s "T1")])]

/-- The spec scenario document
`{name: M, description: d, tables: [T1]}` — structurally valid. -/
def exDoc : Dict :=
  [("name", Yaml.s "M"), ("description", Yaml.s "d"), ("tables", Yaml.list [exT1])]

/-- `exDoc` with `base_table` removed from `T1`. -/
def exDocNoBase : Dict :=
  [("name", Yaml.s "M"), ("description", Yaml.s "d"),
   ("tables", Yaml.list [Yaml.map [("name", Yaml.s "T1")]])]

/-- On a mapping document `validate` never raises and returns the
errors of the two phases in order. -/
theorem validateY_map (kvs : Dict) :
    validateY (Yaml.map kvs)
      = .ok ((requiredErrors kvs ++ tablesPhase kvs).isEmpty,
             requiredErrors kvs ++ tablesPhase kvs) := by
  simp only [validateY, pyIn, pyGetD, requiredErrors, tablesPhase, bind, Except.bind, pure,
    Except.pure]
  by_cases h3 : hasKey kvs "tables"
  · simp only [h3, if_true]
    cases htv : getD kvs "tables" (Yaml.list []) <;>
      simp [List.append_assoc]
  · simp [h3, List.append_assoc]

/-!
## Claim theorems
-/

/-- Claim C7: rerunning `split` without deleting the backup leaves the
backup untouched: when a file exists at the conventional backup path no
backup event occurs at all, and when none exists the backup of the
input is the very first effect, before any output is written. -/
theorem c7_split_backup_once (model : Dict) :
    SplitEv.backupInput ∉ (splitRun model true).1 ∧
    (splitRun model false).1 = SplitEv.backupInput :: (splitRun model true).1 := by
  unfold splitRun
  cases format_sql_as_literal (extract_verified_queries model) <;> simp

/-- Claim C2: when the assembled `tables` sequence is empty the merge
fails with the schema-validation `ValueError` and no output document is
written. -/
theorem c2_empty_tables_merge_fails (metadata instructions verified_queries : Yaml)
    (tableDocs : List Yaml) (now : String) (tableNames : List String)
    (h : load_table_filter tableDocs = []) :
    mergeRun metadata instructions verified_queries tableDocs now tableNames
      = (.error (PyErr.valueError "Schema validation failed"), []) := by
  unfold mergeRun mergeBuild
  rw [h]
  rfl

/-- Witness for C2 at a concrete input: no table documents at all. -/
theorem c2_witness :
    mergeRun (Yaml.map []) (Yaml.map []) (Yaml.map []) [Yaml.null] "2026-02-24" []
      = (.error (PyErr.valueError "Schema validation failed"), []) :=
  c2_empty_tables_merge_fails (Yaml.map []) (Yaml.map []) (Yaml.map [])
    [Yaml.null] "2026-02-24" [] rfl

/-- Counterexample to claim C5: the empty document parses to `None`
(`yaml.safe_load("") is None`), and `validate` then raises `TypeError`
at `"name" not in self.model_data` — a structural problem on
successfully parsed input does raise. -/
theorem c5_counterexample : validateY Yaml.null = .error PyErr.typeError := rfl

/-- Claim C5 as amended: on every parsed document that is a mapping,
`validate` never raises; it returns the pass/fail flag (emptiness of
the error list) together with the ordered error list. -/
theorem c5_amended_no_raise_on_mappings (kvs : Dict) :
    ∃ errs : List String, validateY (Yaml.map kvs) = .ok (errs.isEmpty, errs) :=
  ⟨requiredErrors kvs ++ tablesPhase kvs, validateY_map kvs⟩

/-- Counterexample to claim C8: the code also strips the *leading*
whitespace of the whole SQL text (the `.strip()` call), which the
claimed transformation does not; they disagree on a query whose first
line starts with spaces. -/
theorem c8_counterexample :
    sqlClean "  SELECT 1" = "SELECT 1\n" ∧
    specSqlNormClaim "  SELECT 1" = "  SELECT 1\n" ∧
    sqlClean "  SELECT 1" ≠ specSqlNormClaim "  SELECT 1" := by
  refine ⟨rfl, rfl, ?_⟩
  decide

/-- Claim C8 as amended: the splitter normalisation replaces escaped
newlines, strips trailing whitespace per line, strips the leading and
trailing whitespace of the whole text, and ends with exactly one
trailing newline; the spec example renders as a real two-line block. -/
theorem c8_amended_sql_normalisation :
    (∀ s : String, sqlClean s = specSqlNormAmended s) ∧
    sqlClean "SELECT 1\\nFROM X" = "SELECT 1\nFROM X\n" :=
  ⟨fun _ => rfl, rfl⟩

/-- Counterexample to claim C9: a validation failure and an
upload/deploy failure both terminate `ci-deploy` with the same exit
code 1, so the exit code does not identify the failing step. -/
theorem c9_counterexample :
    ciDeployRun (Yaml.map []) true true = .ok ([CiStep.validateStep], 1) ∧
    ciDeployRun (Yaml.map exDoc) false true
      = .ok ([CiStep.validateStep, CiStep.deployStep], 1) :=
  ⟨rfl, rfl⟩

/-- Claim C9 as amended: `ci-deploy` runs validate, then deploy, then
verify, aborting at the first failing step, but every failing step
exits with the same code 1 (and success exits 0). -/
theorem c9_amended_order_and_exit (model : Yaml) (vb : Bool) (errs : List String)
    (deployOk verifyOk : Bool) (h : validateY model = .ok (vb, errs)) :
    ciDeployRun model deployOk verifyOk
      = .ok (if !vb then ([CiStep.validateStep], 1)
             else if !deployOk then ([CiStep.validateStep, CiStep.deployStep], 1)
             else if !verifyOk then
               ([CiStep.validateStep, CiStep.deployStep, CiStep.verifyStep], 1)
             else ([CiStep.validateStep, CiStep.deployStep, CiStep.verifyStep], 0)) := by
  unfold ciDeployRun
  rw [h]
  cases vb <;> cases deployOk <;> cases verifyOk <;> rfl

/-- Witness for C9 (amended): the valid example document with all
steps passing exits 0. -/
theorem c9_amended_witness :
    ciDeployRun (Yaml.map exDoc) true true
      = .ok ([CiStep.validateStep, CiStep.deployStep, CiStep.verifyStep], 0) :=
  c9_amended_order_and_exit (Yaml.map exDoc) true [] true true rfl

/-- A table entry that is a mapping missing `name` or `base_table`
always contributes at least one error. -/
theorem tableErrors1_ne_nil (i : Nat) (tk : Dict)
    (h : hasKey tk "name" = false ∨ hasKey tk "base_table" = false) :
    tableErrors1 i (Yaml.map tk) ≠ [] := by
  cases h with
  | inl h => simp [tableErrors1, h]
  | inr h => simp [tableErrors1, h]

/-- The table loop reports at least one error whenever some element is
a mapping missing `name` or `base_table`. -/
theorem tableErrorsFrom_ne_nil (i : Nat) (ts : List Yaml)
    (h : ∃ t ∈ ts, ∃ tk, t = Yaml.map tk ∧
      (hasKey tk "name" = false ∨ hasKey tk "base_table" = false)) :
    tableErrorsFrom i ts ≠ [] := by
  induction ts generalizing i with
  | nil => simp at h
  | cons t rest ih =>
    obtain ⟨u, hu, tk, htk, hbad⟩ := h
    simp only [tableErrorsFrom, ne_eq, List.append_eq_nil]
    rcases List.mem_cons.mp hu with h1 | h1
    · subst h1; subst htk
      intro ⟨h2, _⟩
      exact tableErrors1_ne_nil i tk hbad h2
    · intro ⟨_, h3⟩
      exact ih (i + 1) ⟨u, h1, tk, htk, hbad⟩ h3

/-- `validate` on a mapping with a non-empty error list returns the
failure flag with exactly that list. -/
theorem validateY_map_fail (kvs : Dict)
    (h : requiredErrors kvs ++ tablesPhase kvs ≠ []) :
    validateY (Yaml.map kvs) = .ok (false, requiredErrors kvs ++ tablesPhase kvs) := by
  rw [validateY_map]
  cases hl : requiredErrors kvs ++ tablesPhase kvs with
  | nil => exact absurd hl h
  | cons a l => rfl

/-- Claim C3: `validate` fails with a non-empty error list on any
mapping document missing `tables`, and on any document whose `tables`
sequence contains a mapping lacking `name` or `base_table`; moreover,
on the spec scenario document whose single table `T1` has lost its
`base_table`, it fails with exactly one error and that error mentions
`T1`. -/
theorem c3_validate_detects_missing (kvs : Dict) (ts : List Yaml)
    (h : hasKey kvs "tables" = false ∨
         (lookupKey kvs "tables" = some (Yaml.list ts) ∧
          ∃ t ∈ ts, ∃ tk, t = Yaml.map tk ∧
            (hasKey tk "name" = false ∨ hasKey tk "base_table" = false))) :
    (∃ errs, validateY (Yaml.map kvs) = .ok (false, errs) ∧ errs ≠ []) ∧
    validateY (Yaml.map exDocNoBase)
      = .ok (false,
          ["Table 0 (T1) missing " ++ squote ++ "base_table" ++ squote ++ " field"]) ∧
    strContains
      ("Table 0 (T1) missing " ++ squote ++ "base_table" ++ squote ++ " field") "T1"
      = true := by
  refine ⟨?_, rfl, rfl⟩
  have hne : requiredErrors kvs ++ tablesPhase kvs ≠ [] := by
    cases h with
    | inl h1 =>
      simp only [ne_eq, List.append_eq_nil, requiredErrors, h1]
      intro ⟨h2, _⟩
      simp at h2
    | inr h2 =>
      obtain ⟨hl, hbad⟩ := h2
      have hk : hasKey kvs "tables" = true := by simp [hasKey, hl]
      have hp : tablesPhase kvs = tableErrorsFrom 0 ts := by
        simp [tablesPhase, hk, getD, hl]
      simp only [ne_eq, List.append_eq_nil, hp]
      intro ⟨_, h3⟩
      exact tableErrorsFrom_ne_nil 0 ts hbad h3
  exact ⟨requiredErrors kvs ++ tablesPhase kvs, validateY_map_fail kvs hne, hne⟩

/-- Witness for C3 at a concrete input: a document with no `tables`
key. -/
theorem c3_witness :
    (∃ errs, validateY (Yaml.map [("name", Yaml.s "M")]) = .ok (false, errs) ∧ errs ≠ []) ∧
    validateY (Yaml.map exDocNoBase)
      = .ok (false,
          ["Table 0 (T1) missing " ++ squote ++ "base_table" ++ squote ++ " field"]) ∧
    strContains
      ("Table 0 (T1) missing " ++ squote ++ "base_table" ++ squote ++ " field") "T1"
      = true :=
  c3_validate_detects_missing [("name", Yaml.s "M")] [] (Or.inl rfl)

/-- Counterexample to claim C4: on `{tables: "x"}` the required-fields
category fails (`name` and `description` missing) and yet the returned
list also contains the `tables`-must-be-a-sequence error of the next
category — the validator does not short-circuit between categories. -/
theorem c4_counterexample :
    validateY (Yaml.map [("tables", Yaml.s "x")])
      = .ok (false,
          [missingFieldMsg "name", missingFieldMsg "description", tablesNotAListMsg]) ∧
    missingFieldMsg "name"
      ∈ [missingFieldMsg "name", missingFieldMsg "description", tablesNotAListMsg] ∧
    tablesNotAListMsg
      ∈ [missingFieldMsg "name", missingFieldMsg "description", tablesNotAListMsg] := by
  refine ⟨rfl, by simp, by simp⟩

/-- Claim C4 as amended: the validator checks the categories in order
but accumulates every individual error across categories into one
ordered list (required-field errors first, then tables-category
errors); in particular a document with a missing required field and a
non-sequence `tables` value receives the errors of both categories
together. -/
theorem c4_amended_accumulates (kvs : Dict) (t : String)
    (hname : hasKey kvs "name" = false)
    (htab : lookupKey kvs "tables" = some (Yaml.s t)) :
    ∃ errs, validateY (Yaml.map kvs) = .ok (false, errs) ∧
      missingFieldMsg "name" ∈ errs ∧
      tablesNotAListMsg ∈ errs ∧
      errs = requiredErrors kvs ++ tablesPhase kvs := by
  have hk : hasKey kvs "tables" = true := by simp [hasKey, htab]
  have hp : tablesPhase kvs = [tablesNotAListMsg] := by
    simp [tablesPhase, hk, getD, htab]
  have hne : requiredErrors kvs ++ tablesPhase kvs ≠ [] := by
    simp [hp]
  refine ⟨requiredErrors kvs ++ tablesPhase kvs, validateY_map_fail kvs hne, ?_, ?_, rfl⟩
  · simp [requiredErrors, hname]
  · simp [hp]

/-- Witness for C4 (amended) at the concrete input `{tables: "x"}`. -/
theorem c4_amended_witness :
    ∃ errs, validateY (Yaml.map [("tables", Yaml.s "x")]) = .ok (false, errs) ∧
      missingFieldMsg "name" ∈ errs ∧
      tablesNotAListMsg ∈ errs ∧
      errs = requiredErrors [("tables", Yaml.s "x")] ++ tablesPhase [("tables", Yaml.s "x")] :=
  c4_amended_accumulates [("tables", Yaml.s "x")] "x" rfl rfl

/-- If some element of the table list is a mapping whose `name` equals
the requested name, the duplicate scan of `add_table` cannot return
`False`: it either finds the duplicate or raises on an earlier
non-dict element. -/
theorem findExisting_not_false (name : String) (ts : List Yaml)
    (h : ∃ t ∈ ts, ∃ tk, t = Yaml.map tk ∧
      yamlBeq (getD tk "name" Yaml.null) (Yaml.s name) = true) :
    findExisting name ts ≠ .ok false := by
  induction ts with
  | nil => simp at h
  | cons t rest ih =>
    obtain ⟨u, hu, tk, htk, hbeq⟩ := h
    rcases List.mem_cons.mp hu with h1 | h1
    · subst h1; subst htk
      simp [findExisting, hbeq]
    · cases t with
      | map tk0 =>
        by_cases hb : yamlBeq (getD tk0 "name" Yaml.null) (Yaml.s name) = true
        · simp [findExisting, hb]
        · simp only [findExisting, Bool.not_eq_true] at hb ⊢
          rw [hb]
          exact ih ⟨u, h1, tk, htk, hbeq⟩
      | null => simp [findExisting]
      | b bb => simp [findExisting]
      | i n => simp [findExisting]
      | s t0 => simp [findExisting]
      | list l => simp [findExisting]

/-- The duplicate scan can only raise `AttributeError` (from `.get` on
a non-dict element). -/
theorem findExisting_error_attr (name : String) (ts : List Yaml) (e : PyErr)
    (h : findExisting name ts = .error e) : e = PyErr.attributeError := by
  induction ts with
  | nil => simp [findExisting] at h
  | cons t rest ih =>
    cases t with
    | map tk =>
      by_cases hb : yamlBeq (getD tk "name" Yaml.null) (Yaml.s name) = true
      · simp [findExisting, hb] at h
      · simp only [findExisting, Bool.not_eq_true] at hb h
        rw [hb] at h
        exact ih h
    | null => simp [findExisting] at h; exact h.symm
    | b bb => simp [findExisting] at h; exact h.symm
    | i n => simp [findExisting] at h; exact h.symm
    | s t0 => simp [findExisting] at h; exact h.symm
    | list l => simp [findExisting] at h; exact h.symm

/-- Claim C6: when the document already contains a table with the
requested name, the `add-table` command exits with code 1 and performs
no save (neither backup nor document write), leaving the on-disk
document unchanged. -/
theorem c6_add_existing_table_fails (disk : Dict) (ts : List Yaml)
    (name db sch tbl desc : String) (backupOk : Bool)
    (hts : getD disk "tables" (Yaml.list []) = Yaml.list ts)
    (hex : ∃ t ∈ ts, ∃ tk, t = Yaml.map tk ∧
      yamlBeq (getD tk "name" Yaml.null) (Yaml.s name) = true) :
    addTableExit (addTableRun disk name db sch tbl desc backupOk) = (1, []) := by
  unfold addTableRun
  rw [hts]
  cases hfe : findExisting name ts with
  | error e =>
    have he := findExisting_error_attr name ts e hfe
    subst he
    simp [bind, Except.bind, hfe, addTableExit]
  | ok bb =>
    cases bb with
    | false => exact absurd hfe (findExisting_not_false name ts hex)
    | true => simp [bind, Except.bind, hfe, addTableExit]

/-- Witness for C6: adding a table named `T1` to the example document,
which already has one, exits 1 with no filesystem effect. -/
theorem c6_witness :
    addTableExit (addTableRun exDoc "T1" "DB" "SC" "TB" "" true) = (1, []) :=
  c6_add_existing_table_fails exDoc [exT1] "T1" "DB" "SC" "TB" "" true rfl
    ⟨exT1, by simp,
     [("name", Yaml.s "T1"),
      ("base_table", Yaml.map
        [("database", Yaml.s "D"), ("schema", Yaml.s "S"), ("table", Yaml.s "T1")])],
     rfl, rfl⟩

/-- Claim C10: each mutating manager command that reaches its save step
(for `update-description`, the pre-save print of the sliced old
description did not raise; for `add-table`, the duplicate scan came
back clean; for `update-table-description`, the table was found) first
backs up the pre-mutation on-disk document and then overwrites the
document file; when the backup copy fails only a warning is emitted
and the write still happens. -/
theorem c10_backup_before_save (disk : Dict) (newDesc : String)
    (name db sch tbl adesc tname tdesc : String) (ts ts' : List Yaml) (sv : Yaml)
    (hdesc : pySlice50 (getD disk "description" (Yaml.s "")) = .ok sv)
    (hts : getD disk "tables" (Yaml.list []) = Yaml.list ts)
    (hadd : findExisting name ts = .ok false)
    (hupd : setFirstTableDesc tname tdesc ts = .ok (some ts')) :
    (updateDescriptionRun disk newDesc true
        = .ok [Ev.mkBackup disk,
               Ev.writeModel (setKey disk "description" (Yaml.s newDesc))] ∧
     updateDescriptionRun disk newDesc false
        = .ok [Ev.warnBackupFailed,
               Ev.writeModel (setKey disk "description" (Yaml.s newDesc))]) ∧
    (addTableRun disk name db sch tbl adesc true
        = .ok [Ev.mkBackup disk,
               Ev.writeModel (setKey disk "tables"
                 (Yaml.list (ts ++ [Yaml.map (newTableDict name db sch tbl adesc)])))] ∧
     addTableRun disk name db sch tbl adesc false
        = .ok [Ev.warnBackupFailed,
               Ev.writeModel (setKey disk "tables"
                 (Yaml.list (ts ++ [Yaml.map (newTableDict name db sch tbl adesc)])))]) ∧
    (updateTableDescRun disk tname tdesc true
        = .ok [Ev.mkBackup disk, Ev.writeModel (setKey disk "tables" (Yaml.list ts'))] ∧
     updateTableDescRun disk tname tdesc false
        = .ok [Ev.warnBackupFailed, Ev.writeModel (setKey disk "tables" (Yaml.list ts'))]) := by
  refine ⟨?_, ?_, ?_⟩
  · constructor <;> (unfold updateDescriptionRun; rw [hdesc]; rfl)
  · unfold addTableRun
    rw [hts]
    simp [bind, Except.bind, hadd, saveEvents, pure, Except.pure]
  · unfold updateTableDescRun
    rw [hts]
    simp [bind, Except.bind, hupd, saveEvents, pure, Except.pure]

/-- Witness for C10: the example document, adding a fresh table `T2`
and updating the description of `T1`. -/
theorem c10_witness :
    (updateDescriptionRun exDoc "nd" true
        = .ok [Ev.mkBackup exDoc,
               Ev.writeModel (setKey exDoc "description" (Yaml.s "nd"))] ∧
     updateDescriptionRun exDoc "nd" false
        = .ok [Ev.warnBackupFailed,
               Ev.writeModel (setKey exDoc "description" (Yaml.s "nd"))]) ∧
    (addTableRun exDoc "T2" "DB" "SC" "TB" "" true
        = .ok [Ev.mkBackup exDoc,
               Ev.writeModel (setKey exDoc "tables"
                 (Yaml.list ([exT1] ++ [Yaml.map (newTableDict "T2" "DB" "SC" "TB" "")])))] ∧
     addTableRun exDoc "T2" "DB" "SC" "TB" "" false
        = .ok [Ev.warnBackupFailed,
               Ev.writeModel (setKey exDoc "tables"
                 (Yaml.list ([exT1] ++ [Yaml.map (newTableDict "T2" "DB" "SC" "TB" "")])))]) ∧
    (updateTableDescRun exDoc "T1" "x" true
        = .ok [Ev.mkBackup exDoc,
               Ev.writeModel (setKey exDoc "tables"
                 (Yaml.list [Yaml.map
                   [("name", Yaml.s "T1"),
                    ("base_table", Yaml.map
                      [("database", Yaml.s "D"), ("schema", Yaml.s "S"),
                       ("table", Yaml.s "T1")]),
                    ("description", Yaml.s "x")]]))] ∧
     updateTableDescRun exDoc "T1" "x" false
        = .ok [Ev.warnBackupFailed,
               Ev.writeModel (setKey exDoc "tables"
                 (Yaml.list [Yaml.map
                   [("name", Yaml.s "T1"),
                    ("base_table", Yaml.map
                      [("database", Yaml.s "D"), ("schema", Yaml.s "S"),
                       ("table", Yaml.s "T1")]),
                    ("description", Yaml.s "x")]]))]) :=
  c10_backup_before_save exDoc "nd" "T2" "DB" "SC" "TB" "" "T1" "x" [exT1] _
    (Yaml.s ("d".take 50)) rfl rfl rfl rfl

/-- The pure effect of the `format_sql_as_literal` loop on a single
query mapping: normalise the `sql` value when it is a string. -/
def normalizeQueryPure : Yaml → Yaml
  | .map kvs =>
    match lookupKey kvs "sql" with
    | some (.s sqlText) =>
      .map (kvs.map (fun p => if p.1 == "sql" then (p.1, Yaml.s (sqlClean sqlText)) else p))
    | _ => .map kvs
  | q => q

/-- On a query that is a mapping, `formatQuery` never raises and acts
as `normalizeQueryPure`. -/
theorem formatQuery_map (kvs : Dict) :
    formatQuery (Yaml.map kvs) = .ok (normalizeQueryPure (Yaml.map kvs)) := by
  unfold formatQuery normalizeQueryPure
  simp only [pyIn, bind, Except.bind]
  cases hl : lookupKey kvs "sql" with
  | none => simp [hasKey, hl, pure, Except.pure]
  | some v =>
    have hk : hasKey kvs "sql" = true := by simp [hasKey, hl]
    cases v <;> simp [hk, hl, pure, Except.pure]

/-- Over a list of query mappings the formatting loop succeeds and
maps `normalizeQueryPure`. -/
theorem mapM_formatQuery (qs : List Yaml)
    (h : ∀ q ∈ qs, ∃ kvs, q = Yaml.map kvs) :
    qs.mapM formatQuery = .ok (qs.map normalizeQueryPure) := by
  induction qs with
  | nil => rfl
  | cons q rest ih =>
    obtain ⟨kvs, hkvs⟩ := h q (List.mem_cons_self q rest)
    subst hkvs
    rw [List.mapM_cons]
    rw [ih (fun x hx => h x (List.mem_cons_of_mem _ hx))]
    simp [formatQuery_map, bind, Except.bind, pure, Except.pure]

/-- `format_sql_as_literal` on a verified-queries document whose
entries are mappings. -/
theorem format_vq_list (qs : List Yaml)
    (h : ∀ q ∈ qs, ∃ kvs, q = Yaml.map kvs) :
    format_sql_as_literal [("verified_queries", Yaml.list qs)]
      = .ok [("verified_queries", Yaml.list (qs.map normalizeQueryPure))] := by
  unfold format_sql_as_literal
  rw [show getD [("verified_queries", Yaml.list qs)] "verified_queries" (Yaml.list [])
        = Yaml.list qs from rfl]
  simp only [bind, Except.bind, mapM_formatQuery qs h]
  rfl

/-- Claim C1 as amended, round trip at document level.  The split
produces the schema, instructions and verified-queries documents; per
the merger interface each element of the schema document's `tables`
sequence is one per-table document, in that order.  For every valid
document that explicitly carries `instructions` and a
`verified_queries` sequence of query mappings, and whose `tables`
sequence is non-empty (with truthy, i.e. non-empty, entries), merging
the split parts reproduces `name`, `description` and `tables` exactly
and in order, `instructions` exactly, and `verified_queries` up to the
SQL whitespace normalisation of each query. -/
theorem c1_amended_roundtrip (model : Dict) (nv dv : Yaml)
    (ts il qs : List Yaml) (now : String) (names : List String)
    (h1 : lookupKey model "name" = some nv)
    (h2 : lookupKey model "description" = some dv)
    (h3 : lookupKey model "tables" = some (Yaml.list ts))
    (h4 : ts ≠ [])
    (h5 : ∀ t ∈ ts, pyTruthy t = true)
    (h6 : lookupKey model "instructions" = some (Yaml.list il))
    (h7 : lookupKey model "verified_queries" = some (Yaml.list qs))
    (h8 : ∀ q ∈ qs, ∃ kvs, q = Yaml.map kvs) :
    ∃ merged : Dict,
      splitDocs model = .ok (extract_schema model, extract_instructions model,
        [("verified_queries", Yaml.list (qs.map normalizeQueryPure))]) ∧
      mergeRun (Yaml.map (extract_schema model)) (Yaml.map (extract_instructions model))
          (Yaml.map [("verified_queries", Yaml.list (qs.map normalizeQueryPure))])
          ts now names
        = (.ok merged, [merged]) ∧
      lookupKey merged "name" = some nv ∧
      lookupKey merged "description" = some dv ∧
      lookupKey merged "tables" = some (Yaml.list ts) ∧
      lookupKey merged "instructions" = some (Yaml.list il) ∧
      lookupKey merged "verified_queries" = some (Yaml.list (qs.map normalizeQueryPure)) := by
  have hschema : extract_schema model
      = [("name", nv), ("description", dv), ("tables", Yaml.list ts)] := by
    simp [extract_schema, getD, h1, h2, h3]
  have hinstr : extract_instructions model = [("instructions", Yaml.list il)] := by
    simp [extract_instructions, getD, h6]
  have hvqdoc : extract_verified_queries model = [("verified_queries", Yaml.list qs)] := by
    simp [extract_verified_queries, getD, h7]
  have hfmt : format_sql_as_literal (extract_verified_queries model)
      = .ok [("verified_queries", Yaml.list (qs.map normalizeQueryPure))] := by
    rw [hvqdoc]
    exact format_vq_list qs h8
  have hsplit : splitDocs model = .ok (extract_schema model, extract_instructions model,
      [("verified_queries", Yaml.list (qs.map normalizeQueryPure))]) := by
    unfold splitDocs
    rw [hfmt]
    rfl
  have hfilter : load_table_filter ts = ts :=
    List.filter_eq_self.mpr (fun a ha => h5 a ha)
  have hval : validate_schema ts = true := by
    cases ts with
    | nil => exact absurd rfl h4
    | cons a l => rfl
  have hmb : mergeBuild (Yaml.map [("name", nv), ("description", dv), ("tables", Yaml.list ts)])
      (Yaml.map [("instructions", Yaml.list il)])
      (Yaml.map [("verified_queries", Yaml.list (qs.map normalizeQueryPure))]) ts now names
      = .ok ([("name", nv), ("description", dv), ("tables", Yaml.list ts),
              ("instructions", Yaml.list il),
              ("verified_queries", Yaml.list (qs.map normalizeQueryPure)),
              ("metadata", metaBlock now names)]) := by
    unfold mergeBuild
    rw [hfilter, hval]
    rfl
  refine ⟨[("name", nv), ("description", dv), ("tables", Yaml.list ts),
           ("instructions", Yaml.list il),
           ("verified_queries", Yaml.list (qs.map normalizeQueryPure)),
           ("metadata", metaBlock now names)], hsplit, ?_, rfl, rfl, rfl, rfl, rfl⟩
  rw [hschema, hinstr]
  unfold mergeRun
  rw [hmb]
  rfl

/-- The split-then-merge result of `exDoc`, which has no
`instructions` or `verified_queries` keys. -/
def mergedNoInstr : Dict :=
  [("name", Yaml.s "M"), ("description", Yaml.s "d"), ("tables", Yaml.list [exT1]),
   ("instructions", Yaml.list []), ("verified_queries", Yaml.list []),
   ("metadata", metaBlock "2026-02-24" [])]

/-- Counterexample to claim C1: the valid example document `exDoc` has
no `instructions` key, but splitting emits `instructions: []` and
merging copies it back, so the round trip yields a document whose
`instructions` (and `verified_queries`) are present empty sequences —
not equal to the original document's absent fields. -/
theorem c1_counterexample :
    validateY (Yaml.map exDoc) = .ok (true, []) ∧
    lookupKey exDoc "instructions" = none ∧
    lookupKey exDoc "verified_queries" = none ∧
    splitDocs exDoc = .ok (extract_schema exDoc, extract_instructions exDoc,
      [("verified_queries", Yaml.list [])]) ∧
    mergeRun (Yaml.map (extract_schema exDoc)) (Yaml.map (extract_instructions exDoc))
        (Yaml.map [("verified_queries", Yaml.list [])]) [exT1] "2026-02-24" []
      = (.ok mergedNoInstr, [mergedNoInstr]) ∧
    lookupKey mergedNoInstr "instructions" = some (Yaml.list []) ∧
    lookupKey mergedNoInstr "verified_queries" = some (Yaml.list []) :=
  ⟨rfl, rfl, rfl, rfl, rfl, rfl, rfl⟩

/-- A valid document that explicitly carries instructions and a
verified query with an escaped-newline SQL string. -/
def exDocFull : Dict :=
  [("name", Yaml.s "M"), ("description", Yaml.s "d"), ("tables", Yaml.list [exT1]),
   ("instructions", Yaml.list [Yaml.s "rule"]),
   ("verified_queries", Yaml.list
     [Yaml.map [("question", Yaml.s "Q"), ("sql", Yaml.s "SELECT 1\\nFROM X")]])]

/-- Witness for C1 (amended) at the concrete document `exDocFull`. -/
theorem c1_amended_witness :
    ∃ merged : Dict,
      splitDocs exDocFull = .ok (extract_schema exDocFull, extract_instructions exDocFull,
        [("verified_queries", Yaml.list
          ([Yaml.map [("question", Yaml.s "Q"), ("sql", Yaml.s "SELECT 1\\nFROM X")]].map
            normalizeQueryPure))]) ∧
      mergeRun (Yaml.map (extract_schema exDocFull)) (Yaml.map (extract_instructions exDocFull))
          (Yaml.map [("verified_queries", Yaml.list
            ([Yaml.map [("question", Yaml.s "Q"), ("sql", Yaml.s "SELECT 1\\nFROM X")]].map
              normalizeQueryPure))])
          [exT1] "2026-02-24" []
        = (.ok merged, [merged]) ∧
      lookupKey merged "name" = some (Yaml.s "M") ∧
      lookupKey merged "description" = some (Yaml.s "d") ∧
      lookupKey merged "tables" = some (Yaml.list [exT1]) ∧
      lookupKey merged "instructions" = some (Yaml.list [Yaml.s "rule"]) ∧
      lookupKey merged "verified_queries" = some (Yaml.list
        ([Yaml.map [("question", Yaml.s "Q"), ("sql", Yaml.s "SELECT 1\\nFROM X")]].map
          normalizeQueryPure)) := by
  refine c1_amended_roundtrip exDocFull (Yaml.s "M") (Yaml.s "d") [exT1] [Yaml.s "rule"]
    [Yaml.map [("question", Yaml.s "Q"), ("sql", Yaml.s "SELECT 1\\nFROM X")]]
    "2026-02-24" [] rfl rfl rfl ?_ ?_ rfl rfl ?_
  · simp
  · intro t ht
    rw [List.mem_singleton.mp ht]
    rfl
  · intro q hq
    exact ⟨[("question", Yaml.s "Q"), ("sql", Yaml.s "SELECT 1\\nFROM X")],
      List.mem_singleton.mp hq⟩
